import Mathlib

/-!
Verification of the vi-parser (vi-sgo) SGO client, `src/parser.ts`.

The TypeScript class `Parser` is shallowly embedded: its mutable fields become
a `Parser` structure, each method becomes a pure function from the structure
(plus the data the network would supply) to a new structure and/or a result.
JavaScript `Date` values are embedded as `JSDate` (a valid date carries its
millisecond timestamp; an invalid date has a NaN time value, and its `toJSON()`
is `null`).  JavaScript relational operators on dates coerce `null` to `0` and
make every comparison with NaN false; both behaviours are embedded explicitly.
-/

/-- A JavaScript `Date`: either invalid (time value NaN, `toJSON()` null)
or valid with an integer millisecond timestamp. -/
inductive JSDate where
  | invalid
  | valid (time : Int)
deriving DecidableEq

/-- `Date.prototype.getTime`: the timestamp, `none` standing for NaN. -/
def JSDate.getTime : JSDate → Option Int
  | .invalid => none
  | .valid t => some t

/-- Whether `date.toJSON()` is `null` (true exactly for invalid dates). -/
def JSDate.toJSONNull : JSDate → Bool
  | .invalid => true
  | .valid _ => false

/-- JS subtraction on numbers-or-NaN: NaN propagates. -/
def jsSub : Option Int → Option Int → Option Int
  | some a, some b => some (a - b)
  | _, _ => none

/-- JS `<` against a number literal: false when the left side is NaN. -/
def jsLtInt : Option Int → Int → Bool
  | some a, b => a < b
  | none, _ => false

/-- Numeric coercion of a school-year bound: `null` coerces to `0`,
a `Date` to its time value (NaN for an invalid date). -/
def boundNum : Option JSDate → Option Int
  | none => some 0
  | some d => d.getTime

/-- JS `date < bound` where the bound is a `Date` or `null`:
numeric comparison, false whenever either side is NaN. -/
def jsDateLt (d : JSDate) (b : Option JSDate) : Bool :=
  match d.getTime, boundNum b with
  | some t, some u => t < u
  | _, _ => false

/-- JS `date > bound`, same coercions as `jsDateLt`. -/
def jsDateGt (d : JSDate) (b : Option JSDate) : Bool :=
  match d.getTime, boundNum b with
  | some t, some u => u < t
  | _, _ => false

/-- A subject catalog entry (`{ id, name }`). -/
structure Subj where
  id : String
  name : String
deriving DecidableEq

/-- The session state of the `Parser` class: every field the constructor
initialises, with `null` embedded as `none` and the cookie jar as an
insertion-ordered association list. -/
structure Parser where
  host : String
  login : String
  password : String
  ttslogin : String
  _at : Option String
  _ver : Option String
  _cookie : List (String × String)
  _secure : Bool
  _sessionTime : Option Int
  _userId : Option Int
  _yearId : Option String
  _classId : Option Int
  _skoolId : Option String
  _currYear : Option String
  _serverId : Option String
  _skoolName : Option String
  _timeFormat : Option String
  _dateFormat : Option String
  _serverTimeZone : Option Int
  subjects : List Subj
  studyYearStart : Option JSDate
  studyYearEnd : Option JSDate
deriving DecidableEq

/-- The constructor: credentials stored, every session and identity field
`null`, empty cookie jar, `_secure = true`, empty subject catalog and an
unset school-year window (`studyYear = { start: null, end: null }`). -/
def Parser.construct (host login password ttslogin : String) : Parser :=
  { host := host
    login := login
    password := password
    ttslogin := ttslogin
    _at := none
    _ver := none
    _cookie := []
    _secure := true
    _sessionTime := none
    _userId := none
    _yearId := none
    _classId := none
    _skoolId := none
    _currYear := none
    _serverId := none
    _skoolName := none
    _timeFormat := none
    _dateFormat := none
    _serverTimeZone := none
    subjects := []
    studyYearStart := none
    studyYearEnd := none }

/-- JS truthiness test (negated) for a nullable string: `!s` is true for
`null` and for the empty string. -/
def strFalsy : Option String → Bool
  | none => true
  | some s => s = ""

/-- Numeric coercion of a nullable number: `null` coerces to `0`. -/
def numOrZero : Option Int → Int
  | none => 0
  | some n => n

/-- `get needAuth()`: `!this._at || !this._ver || this._sessionTime - Date.now() < 1000`. -/
def Parser.needAuth (p : Parser) (now : Int) : Bool :=
  strFalsy p._at || strFalsy p._ver || numOrZero p._sessionTime - now < 1000

/-- The body of `checkDates`'s per-date test:
`date < this.studyYear.start || date > this.studyYear.end || date.toJSON() == null`. -/
def dateFails (p : Parser) (d : JSDate) : Bool :=
  jsDateLt d p.studyYearStart || jsDateGt d p.studyYearEnd || d.toJSONNull

/-- `checkDates(...dates)`: false as soon as one date fails, true otherwise. -/
def Parser.checkDates (p : Parser) (dates : List JSDate) : Bool :=
  dates.all (fun d => !(dateFails p d))

/-- The validation errors thrown before any network request is issued. -/
inductive VError where
  | invalidDates
  | intervalTooShort
  | invalidSubjectId
deriving DecidableEq

/-- The diary request the method would issue after validation passes
(`/webapi/student/diary` with `vers`, `yearId`, `weekStart`, `weekEnd`,
`studentId` and the `at` header). -/
structure DiaryRequest where
  ver : Option String
  yearId : Option String
  weekStart : JSDate
  weekEnd : JSDate
  studentId : Option Int
  atHeader : Option String
deriving DecidableEq

/-- `diary(start, end)`: throws when `checkDates` fails, throws when
`end.getTime() - start.getTime() < 8.64e7`, otherwise issues the request. -/
def Parser.diary (p : Parser) (start fin : JSDate) : Except VError DiaryRequest :=
  if !(p.checkDates [start, fin]) then .error .invalidDates
  else if jsLtInt (jsSub fin.getTime start.getTime) 86400000 then .error .intervalTooShort
  else .ok { ver := p._ver, yearId := p._yearId, weekStart := start,
             weekEnd := fin, studentId := p._userId, atHeader := p._at }

/-- With the school-year window set to valid dates, a single date passes the
check exactly when it is a valid date inside the window. -/
theorem checkDates_single (p : Parser) (bs be : Int)
    (hs : p.studyYearStart = some (.valid bs)) (he : p.studyYearEnd = some (.valid be))
    (d : JSDate) :
    (dateFails p d = false) ↔ ∃ t, d = .valid t ∧ bs ≤ t ∧ t ≤ be := by
  cases d with
  | invalid =>
      simp [dateFails, JSDate.toJSONNull]
  | valid t =>
      simp only [dateFails, hs, he, jsDateLt, jsDateGt, boundNum, JSDate.getTime,
        JSDate.toJSONNull, Bool.or_false, Bool.or_eq_false_iff, decide_eq_false_iff_not]
      constructor
      · rintro ⟨h1, h2⟩
        exact ⟨t, rfl, by omega, by omega⟩
      · rintro ⟨u, hu, h1, h2⟩
        cases hu
        exact ⟨by omega, by omega⟩

/-- C1: with the school-year window set, the diary operation issues its
request exactly when both dates are valid calendar dates lying inside the
window and the end is at least 24 hours (86400000 ms) after the start; in
every other case it fails with a `ValidationError` (out-of-range or invalid
dates, or a too-short interval) and no request value is produced. -/
theorem c1_diary_date_validation (p : Parser) (bs be : Int)
    (hs : p.studyYearStart = some (.valid bs)) (he : p.studyYearEnd = some (.valid be))
    (start fin : JSDate) :
    ((∃ r, p.diary start fin = .ok r) ↔
      (∃ ts te, start = .valid ts ∧ fin = .valid te ∧
        bs ≤ ts ∧ ts ≤ be ∧ bs ≤ te ∧ te ≤ be ∧ 86400000 ≤ te - ts)) ∧
    ((¬ ∃ ts te, start = .valid ts ∧ fin = .valid te ∧
        bs ≤ ts ∧ ts ≤ be ∧ bs ≤ te ∧ te ≤ be ∧ 86400000 ≤ te - ts) →
      p.diary start fin = .error .invalidDates ∨
      p.diary start fin = .error .intervalTooShort) := by
  have hcheck : p.checkDates [start, fin] = true ↔
      ((∃ t, start = .valid t ∧ bs ≤ t ∧ t ≤ be) ∧
       (∃ t, fin = .valid t ∧ bs ≤ t ∧ t ≤ be)) := by
    simp only [Parser.checkDates, List.all_cons, List.all_nil, Bool.and_true,
      Bool.and_eq_true, Bool.not_eq_true']
    rw [checkDates_single p bs be hs he start, checkDates_single p bs be hs he fin]
  constructor
  · constructor
    · rintro ⟨r, hr⟩
      unfold Parser.diary at hr
      by_cases hc : p.checkDates [start, fin] = true
      · obtain ⟨⟨ts, hts, h1, h2⟩, ⟨te, hte, h3, h4⟩⟩ := hcheck.mp hc
        subst hts; subst hte
        refine ⟨ts, te, rfl, rfl, h1, h2, h3, h4, ?_⟩
        simp only [hc, Bool.not_true, Bool.false_eq_true, if_false] at hr
        by_cases hint : jsLtInt (jsSub (JSDate.valid te).getTime (JSDate.valid ts).getTime) 86400000 = true
        · simp [hint] at hr
        · simp only [JSDate.getTime, jsSub, jsLtInt, decide_eq_true_eq] at hint
          omega
      · simp only [Bool.not_eq_true] at hc
        simp [hc] at hr
    · rintro ⟨ts, te, hts, hte, h1, h2, h3, h4, h5⟩
      subst hts; subst hte
      have hc : p.checkDates [JSDate.valid ts, JSDate.valid te] = true :=
        hcheck.mpr ⟨⟨ts, rfl, h1, h2⟩, ⟨te, rfl, h3, h4⟩⟩
      have hint : jsLtInt (jsSub (JSDate.valid te).getTime (JSDate.valid ts).getTime) 86400000 = false := by
        simp only [JSDate.getTime, jsSub, jsLtInt, decide_eq_false_iff_not]
        omega
      refine ⟨{ ver := p._ver, yearId := p._yearId, weekStart := JSDate.valid ts,
                weekEnd := JSDate.valid te, studentId := p._userId, atHeader := p._at }, ?_⟩
      unfold Parser.diary
      simp [hc, hint]
  · intro hno
    unfold Parser.diary
    by_cases hc : p.checkDates [start, fin] = true
    · obtain ⟨⟨ts, hts, h1, h2⟩, ⟨te, hte, h3, h4⟩⟩ := hcheck.mp hc
      subst hts; subst hte
      have hint : jsLtInt (jsSub (JSDate.valid te).getTime (JSDate.valid ts).getTime) 86400000 = true := by
        simp only [JSDate.getTime, jsSub, jsLtInt, decide_eq_true_eq]
        by_contra hcon
        exact hno ⟨ts, te, rfl, rfl, h1, h2, h3, h4, by omega⟩
      right
      simp [hc, hint]
    · left
      simp only [Bool.not_eq_true] at hc
      simp [hc]

/-- C1 witness: a session with the window 0..10^12 accepts the pair
(5, 86400005) and rejects the pair (5, 5). -/
theorem c1_witness :
    (∃ r, ({ Parser.construct "h" "l" "pw" "tts" with
        studyYearStart := some (.valid 0),
        studyYearEnd := some (.valid 1000000000000) } : Parser).diary
        (.valid 5) (.valid 86400005) = .ok r) ∧
    (({ Parser.construct "h" "l" "pw" "tts" with
        studyYearStart := some (.valid 0),
        studyYearEnd := some (.valid 1000000000000) } : Parser).diary
        (.valid 5) (.valid 5) = .error .invalidDates ∨
     ({ Parser.construct "h" "l" "pw" "tts" with
        studyYearStart := some (.valid 0),
        studyYearEnd := some (.valid 1000000000000) } : Parser).diary
        (.valid 5) (.valid 5) = .error .intervalTooShort) := by
  constructor
  · exact (c1_diary_date_validation _ 0 1000000000000 rfl rfl _ _).1.mpr
      ⟨5, 86400005, rfl, rfl, by omega, by omega, by omega, by omega, by omega⟩
  · exact (c1_diary_date_validation _ 0 1000000000000 rfl rfl _ _).2
      (by rintro ⟨ts, te, hts, hte, h⟩; cases hts; cases hte; omega)

/-- A report filter value: a JS number, string, or `null`. -/
inductive FilterValue where
  | num (n : Int)
  | str (s : String)
  | nullv
deriving DecidableEq

/-- One `{ filterId, filterValue }` entry of a report submission. -/
structure RFilter where
  filterId : String
  filterValue : FilterValue
deriving DecidableEq

/-- The POST a report operation submits to its `.../queue` endpoint. -/
structure ReportRequest where
  url : String
  filters : List RFilter
deriving DecidableEq

/-- A nullable JS number used as a filter value. -/
def jsOptIntVal : Option Int → FilterValue
  | none => .nullv
  | some n => .num n

/-- JS string coercion of a nullable number (`null` prints as "null"). -/
def jsIntToString : Option Int → String
  | none => "null"
  | some n => toString n

/-- `date.toJSON()` coerced to a string: the canonical serialization `ser`
of the timestamp for a valid date, the string "null" for an invalid one.
`ser` abstracts the ISO-8601 rendering, which is external to this layer. -/
def jsonStr (ser : Int → String) : JSDate → String
  | .invalid => "null"
  | .valid t => ser t

/-- `subject(id, start, end)`: throws when the id is not in the cached
subject catalog, then when `checkDates` fails; otherwise submits the
grade-report filter set to `/webapi/reports/studentgrades/queue`. -/
def Parser.subject (p : Parser) (ser : Int → String) (id : String)
    (start fin : JSDate) : Except VError ReportRequest :=
  if !(p.subjects.any (fun s => s.id == id)) then .error .invalidSubjectId
  else if !(p.checkDates [start, fin]) then .error .invalidDates
  else .ok { url := "/webapi/reports/studentgrades/queue",
             filters := [
               { filterId := "SID", filterValue := jsOptIntVal p._userId },
               { filterId := "PCLID_IUP", filterValue := .str (jsIntToString p._classId ++ "_0") },
               { filterId := "SGID", filterValue := .str id },
               { filterId := "period",
                 filterValue := .str (jsonStr ser start ++ " - " ++ jsonStr ser fin) } ] }

/-- `journal(start, end)`: throws when `checkDates` fails; otherwise submits
the totals-report filter set to `/webapi/reports/studenttotal/queue`. -/
def Parser.journal (p : Parser) (ser : Int → String)
    (start fin : JSDate) : Except VError ReportRequest :=
  if !(p.checkDates [start, fin]) then .error .invalidDates
  else .ok { url := "/webapi/reports/studenttotal/queue",
             filters := [
               { filterId := "SID", filterValue := jsOptIntVal p._userId },
               { filterId := "PCLID", filterValue := jsOptIntVal p._classId },
               { filterId := "period",
                 filterValue := .str (jsonStr ser start ++ " - " ++ jsonStr ser fin) } ] }

/-- The month-birthdays POST (its body fields beyond the guard's concern
are the date's month/year, the class id and the parents flag). -/
structure BirthRequest where
  date : JSDate
  withoutParens : Bool
  classId : Option Int
deriving DecidableEq

/-- `birthdays(date, withoutParens)`: throws when `checkDates` fails on the
single date, otherwise issues the POST. -/
def Parser.birthdays (p : Parser) (d : JSDate) (withoutParens : Bool) :
    Except VError BirthRequest :=
  if !(p.checkDates [d]) then .error .invalidDates
  else .ok { date := d, withoutParens := withoutParens, classId := p._classId }

/-- On a freshly constructed session both school-year bounds are `null`,
which JS coerces to the number 0: every valid date with a nonzero timestamp
is either below or above the window, and invalid dates fail on `toJSON`. -/
theorem fresh_dateFails (h l pw tts : String) (d : JSDate) (hd : d ≠ .valid 0) :
    dateFails (Parser.construct h l pw tts) d = true := by
  cases d with
  | invalid => simp [dateFails, JSDate.toJSONNull]
  | valid t =>
      have ht : t ≠ 0 := by intro hc; exact hd (by rw [hc])
      simp only [dateFails, Parser.construct, jsDateLt, jsDateGt, boundNum,
        JSDate.getTime, JSDate.toJSONNull, Bool.or_false, Bool.or_eq_true,
        decide_eq_true_eq]
      omega

/-- C10: on a freshly constructed session (school-year window unset), the
date check rejects every date whose timestamp is nonzero (or NaN), so each
date-scoped operation — diary, subject report, journal, birthdays — invoked
with such a date before login fails its validation guard with an error and
produces no request. -/
theorem c10_fresh_session_guard (h l pw tts : String) (ser : Int → String) :
    (∀ d : JSDate, d ≠ .valid 0 →
      (Parser.construct h l pw tts).checkDates [d] = false) ∧
    (∀ s e : JSDate, s ≠ .valid 0 ∨ e ≠ .valid 0 →
      ∃ er, (Parser.construct h l pw tts).diary s e = .error er) ∧
    (∀ (id : String) (s e : JSDate), s ≠ .valid 0 ∨ e ≠ .valid 0 →
      ∃ er, (Parser.construct h l pw tts).subject ser id s e = .error er) ∧
    (∀ s e : JSDate, s ≠ .valid 0 ∨ e ≠ .valid 0 →
      ∃ er, (Parser.construct h l pw tts).journal ser s e = .error er) ∧
    (∀ (d : JSDate) (wp : Bool), d ≠ .valid 0 →
      ∃ er, (Parser.construct h l pw tts).birthdays d wp = .error er) := by
  have hpair : ∀ s e : JSDate, s ≠ .valid 0 ∨ e ≠ .valid 0 →
      (Parser.construct h l pw tts).checkDates [s, e] = false := by
    intro s e hse
    cases hse with
    | inl hs => simp [Parser.checkDates, fresh_dateFails h l pw tts s hs]
    | inr he => simp [Parser.checkDates, fresh_dateFails h l pw tts e he]
  refine ⟨?_, ?_, ?_, ?_, ?_⟩
  · intro d hd
    simp [Parser.checkDates, fresh_dateFails h l pw tts d hd]
  · intro s e hse
    exact ⟨.invalidDates, by simp [Parser.diary, hpair s e hse]⟩
  · intro id s e hse
    refine ⟨.invalidSubjectId, ?_⟩
    simp [Parser.subject, Parser.construct]
  · intro s e hse
    exact ⟨.invalidDates, by simp [Parser.journal, hpair s e hse]⟩
  · intro d wp hd
    exact ⟨.invalidDates, by
      simp [Parser.birthdays, Parser.checkDates, fresh_dateFails h l pw tts d hd]⟩

/-- C10 witness: the fresh session rejects the date with timestamp 5 and each
operation fails on it. -/
theorem c10_witness :
    (Parser.construct "h" "l" "pw" "tts").checkDates [.valid 5] = false ∧
    (∃ er, (Parser.construct "h" "l" "pw" "tts").diary (.valid 5) (.valid 6) = .error er) ∧
    (∃ er, (Parser.construct "h" "l" "pw" "tts").subject (fun _ => "") "s1" (.valid 5) (.valid 6) = .error er) ∧
    (∃ er, (Parser.construct "h" "l" "pw" "tts").journal (fun _ => "") (.valid 5) (.valid 6) = .error er) ∧
    (∃ er, (Parser.construct "h" "l" "pw" "tts").birthdays (.valid 5) true = .error er) := by
  have hd5 : (JSDate.valid 5) ≠ .valid 0 := by decide
  obtain ⟨h1, h2, h3, h4, h5⟩ := c10_fresh_session_guard "h" "l" "pw" "tts" (fun _ => "")
  exact ⟨h1 _ hd5, h2 _ _ (Or.inl hd5), h3 "s1" _ _ (Or.inl hd5),
         h4 _ _ (Or.inl hd5), h5 _ true hd5⟩

/-- C8: the subject report fails with the unknown-id `ValidationError`, and
produces no queue request, exactly when the requested id does not occur in
the session's cached subject catalog; when it occurs, that guard passes. -/
theorem c8_subject_guard_spec (p : Parser) (ser : Int → String) (id : String)
    (s e : JSDate) :
    ((¬ ∃ sb ∈ p.subjects, sb.id = id) →
      p.subject ser id s e = .error .invalidSubjectId) ∧
    ((∃ sb ∈ p.subjects, sb.id = id) →
      p.subject ser id s e ≠ .error .invalidSubjectId) := by
  have hany : p.subjects.any (fun sb => sb.id == id) = true ↔
      ∃ sb ∈ p.subjects, sb.id = id := by
    simp [List.any_eq_true]
  constructor
  · intro hno
    have : p.subjects.any (fun sb => sb.id == id) = false := by
      rw [Bool.eq_false_iff]
      intro hc
      exact hno (hany.mp hc)
    simp [Parser.subject, this]
  · intro hyes
    have hT : p.subjects.any (fun sb => sb.id == id) = true := hany.mpr hyes
    unfold Parser.subject
    simp only [hT, Bool.not_true, Bool.false_eq_true, if_false]
    by_cases hc : p.checkDates [s, e] = true
    · simp [hc]
    · simp only [Bool.not_eq_true] at hc
      simp [hc]

/-- C8 witness: with catalog `[{ id := "s1" }]`, the id "s2" is rejected with
the unknown-id error and the id "s1" passes that guard. -/
theorem c8_witness :
    ({ Parser.construct "h" "l" "pw" "tts" with
        subjects := [⟨"s1", "Math"⟩] } : Parser).subject (fun _ => "") "s2"
        (.valid 5) (.valid 6) = .error .invalidSubjectId ∧
    ({ Parser.construct "h" "l" "pw" "tts" with
        subjects := [⟨"s1", "Math"⟩] } : Parser).subject (fun _ => "") "s1"
        (.valid 5) (.valid 6) ≠ .error .invalidSubjectId := by
  constructor
  · exact (c8_subject_guard_spec _ _ "s2" _ _).1 (by decide)
  · exact (c8_subject_guard_spec _ _ "s1" _ _).2 ⟨⟨"s1", "Math"⟩, by decide, rfl⟩

/-- A sample logged-in session used to exercise the report operations:
user id 7, class id 3, subject catalog `[{ "s1", "Math" }]`, school year
window 0 .. 10^12 (milliseconds). -/
def sampleSession : Parser :=
  { Parser.construct "h" "l" "pw" "tts" with
      _userId := some 7
      _classId := some 3
      subjects := [⟨"s1", "Math"⟩]
      studyYearStart := some (.valid 0)
      studyYearEnd := some (.valid 1000000000000) }

/-- C5 counterexample: the period filter the code submits is
`start.toJSON() + ' - ' + end.toJSON()` — the serializations joined by a
hyphen surrounded by spaces — so for the serialization that prints the
timestamp, the submitted value "0 - 86400000" differs from the claimed
`"<start>-<end>"` form "0-86400000". -/
theorem c5_counterexample :
    sampleSession.subject (fun t => toString t) "s1" (.valid 0) (.valid 86400000) =
      .ok { url := "/webapi/reports/studentgrades/queue",
            filters := [
              { filterId := "SID", filterValue := .num 7 },
              { filterId := "PCLID_IUP", filterValue := .str "3_0" },
              { filterId := "SGID", filterValue := .str "s1" },
              { filterId := "period", filterValue := .str "0 - 86400000" } ] } ∧
    ("0 - 86400000" : String) ≠ "0" ++ "-" ++ "86400000" := by
  constructor
  · rfl
  · decide

/-- C5 (amended): every report submission POSTs its filter set to the
flavor's `.../queue` endpoint; both flavors always carry the user id (`SID`)
and a class-identifier filter (`PCLID_IUP` with value `"<classId>_0"` for the
subject flavor, `PCLID` with the numeric class id for the journal flavor),
the subject flavor additionally carries the `SGID` subject-id filter, and the
period filter's value is the canonical serializations of the two dates joined
by `" - "` (a hyphen surrounded by single spaces). -/
theorem c5_report_filters_spec (p : Parser) (ser : Int → String) (id : String)
    (s e : JSDate) :
    (∀ r, p.subject ser id s e = .ok r →
      r.url = "/webapi/reports/studentgrades/queue" ∧
      r.filters = [
        { filterId := "SID", filterValue := jsOptIntVal p._userId },
        { filterId := "PCLID_IUP", filterValue := .str (jsIntToString p._classId ++ "_0") },
        { filterId := "SGID", filterValue := .str id },
        { filterId := "period",
          filterValue := .str (jsonStr ser s ++ " - " ++ jsonStr ser e) } ]) ∧
    (∀ r, p.journal ser s e = .ok r →
      r.url = "/webapi/reports/studenttotal/queue" ∧
      r.filters = [
        { filterId := "SID", filterValue := jsOptIntVal p._userId },
        { filterId := "PCLID", filterValue := jsOptIntVal p._classId },
        { filterId := "period",
          filterValue := .str (jsonStr ser s ++ " - " ++ jsonStr ser e) } ]) := by
  constructor
  · intro r hr
    unfold Parser.subject at hr
    split at hr
    · exact absurd hr (by simp)
    · split at hr
      · exact absurd hr (by simp)
      · rw [Except.ok.injEq] at hr
        subst hr
        exact ⟨rfl, rfl⟩
  · intro r hr
    unfold Parser.journal at hr
    split at hr
    · exact absurd hr (by simp)
    · rw [Except.ok.injEq] at hr
      subst hr
      exact ⟨rfl, rfl⟩

/-- C5 witness: the amended filter-set description evaluated on the sample
session, subject "s1" and the window (0, 86400000). -/
theorem c5_witness :
    (({ url := "/webapi/reports/studentgrades/queue",
        filters := [
          { filterId := "SID", filterValue := .num 7 },
          { filterId := "PCLID_IUP", filterValue := .str "3_0" },
          { filterId := "SGID", filterValue := .str "s1" },
          { filterId := "period", filterValue := .str "0 - 86400000" } ] } : ReportRequest).url =
       "/webapi/reports/studentgrades/queue" ∧
     ({ url := "/webapi/reports/studentgrades/queue",
        filters := [
          { filterId := "SID", filterValue := .num 7 },
          { filterId := "PCLID_IUP", filterValue := .str "3_0" },
          { filterId := "SGID", filterValue := .str "s1" },
          { filterId := "period", filterValue := .str "0 - 86400000" } ] } : ReportRequest).filters = [
          { filterId := "SID", filterValue := jsOptIntVal sampleSession._userId },
          { filterId := "PCLID_IUP",
            filterValue := .str (jsIntToString sampleSession._classId ++ "_0") },
          { filterId := "SGID", filterValue := .str "s1" },
          { filterId := "period",
            filterValue := .str (jsonStr (fun t => toString t) (.valid 0) ++ " - " ++
              jsonStr (fun t => toString t) (.valid 86400000)) } ]) :=
  (c5_report_filters_spec sampleSession (fun t => toString t) "s1"
    (.valid 0) (.valid 86400000)).1 _ (by rfl)

/-- Modelled from the spec: the `md5` hashing utility is imported from the
external helpers module and is treated as a black box (any function from
strings to strings); like the real MD5, this representative instance used for
concrete evaluation returns a 32-character hex-alphabet digest. -/
def md5Model (s : String) : String :=
  String.mk (List.replicate 32 (Char.ofNat (97 + s.length % 6)))

/-- The two-stage login digest sent as `pw2`:
`md5(salt + md5(this._password))`. -/
def loginDigest (md5f : String → String) (salt pw : String) : String :=
  md5f (salt ++ md5f pw)

/-- The truncated digest sent as `PW`:
`password.substring(0, this._password.length)` applied to the digest. -/
def loginPWfield (md5f : String → String) (salt pw : String) : String :=
  String.mk ((loginDigest md5f salt pw).data.take pw.length)

/-- C4 counterexample: for a 33-character password the digest (32 characters,
as with the real MD5) is shorter than the password, so the truncated `PW`
field has length 32, not the password's character count 33. -/
theorem c4_counterexample :
    (loginPWfield md5Model "salt" (String.mk (List.replicate 33 'a'))).length = 32 ∧
    (String.mk (List.replicate 33 'a')).length = 33 ∧
    (loginPWfield md5Model "salt" (String.mk (List.replicate 33 'a'))).length ≠
      (String.mk (List.replicate 33 'a')).length := by
  refine ⟨rfl, rfl, ?_⟩
  decide

/-- C4 (amended): the `pw2` digest is the hash of the salt concatenated with
the hash of the raw password, hence deterministic in (salt, password); the
truncated `PW` field has length `min(password length, digest length)`, which
equals the raw password's character count exactly when the password is no
longer than the digest (32 characters for MD5). -/
theorem c4_login_digest_spec (md5f : String → String) (salt pw : String) :
    loginDigest md5f salt pw = md5f (salt ++ md5f pw) ∧
    (∀ salt2 pw2, salt2 = salt → pw2 = pw →
      loginDigest md5f salt2 pw2 = loginDigest md5f salt pw) ∧
    (loginPWfield md5f salt pw).length =
      min pw.length (loginDigest md5f salt pw).length ∧
    (pw.length ≤ (loginDigest md5f salt pw).length →
      (loginPWfield md5f salt pw).length = pw.length) := by
  refine ⟨rfl, ?_, ?_, ?_⟩
  · intro salt2 pw2 h1 h2
    rw [h1, h2]
  · exact List.length_take pw.length (loginDigest md5f salt pw).data
  · intro hle
    have hle2 : pw.data.length ≤ (loginDigest md5f salt pw).data.length := hle
    show ((loginDigest md5f salt pw).data.take pw.data.length).length = pw.data.length
    rw [List.length_take]
    exact Nat.min_eq_left hle2

/-- C4 witness: for the representative digest function, salt "salt" and the
two-character password "pw", the truncated field has length 2. -/
theorem c4_witness :
    loginDigest md5Model "salt" "pw" = md5Model ("salt" ++ md5Model "pw") ∧
    (loginPWfield md5Model "salt" "pw").length = ("pw" : String).length := by
  constructor
  · exact (c4_login_digest_spec md5Model "salt" "pw").1
  · exact (c4_login_digest_spec md5Model "salt" "pw").2.2.2 (by decide)

/-- The seed material `{ lt, ver, salt }` returned by `/webapi/auth/getdata`. -/
structure LoginSeed where
  lt : String
  ver : String
  salt : String
deriving DecidableEq

/-- The grant `{ at, timeOut }` returned by `/webapi/login`. -/
structure LoginGrant where
  atToken : String
  timeOut : Int
deriving DecidableEq

/-- The context fields parsed from the MySettings page by the external
`parserAppContext` (token/version refresh and account metadata). -/
structure AppCtxData where
  atToken : String
  ver : String
  yearId : String
  schoolId : String
  currYear : String
  fullSchoolName : String
  dateFormat : String
  timeFormat : String
  serverTimeZone : Int
deriving DecidableEq

/-- The values extracted from the studentgrades default filter sources:
user id (`SID`), class id (`PCLID_IUP`), subject catalog (`SGID`) and the
school-year window (`period.defaultRange`). -/
structure GradesFilters where
  userId : Int
  classId : Int
  subjects : List Subj
  rangeStart : JSDate
  rangeEnd : JSDate
deriving DecidableEq

/-- JS truthiness test (negated) for a nullable number: `!n` is true for
`null` and for `0`. -/
def intFalsy : Option Int → Bool
  | none => true
  | some n => n = 0

/-- `appContext()` on the success path: stores the parsed context fields and
the extracted account identity, subject catalog and school-year window. -/
def Parser.appContext (p : Parser) (ctx : AppCtxData) (g : GradesFilters) : Parser :=
  { p with _at := some ctx.atToken, _ver := some ctx.ver,
           _yearId := some ctx.yearId, _skoolId := some ctx.schoolId,
           _currYear := some ctx.currYear, _skoolName := some ctx.fullSchoolName,
           _dateFormat := some ctx.dateFormat, _timeFormat := some ctx.timeFormat,
           _serverTimeZone := some ctx.serverTimeZone,
           _userId := some g.userId, _classId := some g.classId,
           subjects := g.subjects,
           studyYearStart := some g.rangeStart, studyYearEnd := some g.rangeEnd }

/-- `logIn()` on the success path: detects the scheme, stores the seed's
`ver`, stores the granted token and `sessionTime = now + timeOut`, and runs
the one-time account-context bootstrap when `!this._userId`. -/
def Parser.applyLogIn (p : Parser) (now : Int) (secure : Bool) (seed : LoginSeed)
    (grant : LoginGrant) (ctx : AppCtxData) (g : GradesFilters) : Parser :=
  let p2 := { p with _secure := secure, _ver := some seed.ver,
                     _at := some grant.atToken,
                     _sessionTime := some (now + grant.timeOut) }
  if intFalsy p2._userId then p2.appContext ctx g else p2

/-- C2: `needAuth` is a pure predicate of the session state and the clock.
With the expiry set it is true exactly when the token is absent (JS-falsy:
null or empty), the protocol version is absent, or the remaining time to
expiry is below the 1000 ms margin; it is true on a freshly constructed
session, false immediately after a successful login whose granted token,
version and context are non-empty and whose timeout is at least the margin,
and true again at any instant past `sessionTime - 1000`. -/
theorem c2_needAuth_spec :
    (∀ (p : Parser) (now T : Int), p._sessionTime = some T →
      (p.needAuth now = true ↔
        (strFalsy p._at = true ∨ strFalsy p._ver = true ∨ T - now < 1000))) ∧
    (∀ (h l pw tts : String) (now : Int),
      (Parser.construct h l pw tts).needAuth now = true) ∧
    (∀ (p : Parser) (now : Int) (secure : Bool) (seed : LoginSeed)
        (grant : LoginGrant) (ctx : AppCtxData) (g : GradesFilters),
      seed.ver ≠ "" → grant.atToken ≠ "" → ctx.ver ≠ "" → ctx.atToken ≠ "" →
      1000 ≤ grant.timeOut →
      (p.applyLogIn now secure seed grant ctx g).needAuth now = false) ∧
    (∀ (p : Parser) (now2 T : Int), p._sessionTime = some T → T - 1000 < now2 →
      p.needAuth now2 = true) := by
  refine ⟨?_, ?_, ?_, ?_⟩
  · intro p now T hT
    simp only [Parser.needAuth, hT, numOrZero, Bool.or_eq_true, decide_eq_true_eq]
    tauto
  · intro h l pw tts now
    simp [Parser.needAuth, Parser.construct, strFalsy]
  · intro p now secure seed grant ctx g hver hat hcver hcat ht2
    simp only [Parser.applyLogIn]
    split
    · simp only [Parser.appContext, Parser.needAuth, strFalsy, numOrZero,
        Bool.or_eq_false_iff, decide_eq_false_iff_not]
      exact ⟨⟨hcat, hcver⟩, by omega⟩
    · simp only [Parser.needAuth, strFalsy, numOrZero,
        Bool.or_eq_false_iff, decide_eq_false_iff_not]
      exact ⟨⟨hat, hver⟩, by omega⟩
  · intro p now2 T hT hlt
    simp only [Parser.needAuth, hT, numOrZero, Bool.or_eq_true, decide_eq_true_eq]
    have hfin : T - now2 < 1000 := by omega
    tauto

/-- C2 witness: the scenario at concrete values — fresh session needs auth at
time 0; after a login at time 0 granting token "tok" with a 3600000 ms
timeout (and bootstrap context "tok2"/"v2") it does not; at time 3599001 it
does again. -/
theorem c2_witness :
    (Parser.construct "h" "l" "pw" "tts").needAuth 0 = true ∧
    ((Parser.construct "h" "l" "pw" "tts").applyLogIn 0 true ⟨"lt", "v", "s"⟩
      ⟨"tok", 3600000⟩ ⟨"tok2", "v2", "y", "sc", "cy", "sn", "df", "tf", 5⟩
      ⟨7, 3, [⟨"s1", "Math"⟩], .valid 0, .valid 10⟩).needAuth 0 = false ∧
    ((Parser.construct "h" "l" "pw" "tts").applyLogIn 0 true ⟨"lt", "v", "s"⟩
      ⟨"tok", 3600000⟩ ⟨"tok2", "v2", "y", "sc", "cy", "sn", "df", "tf", 5⟩
      ⟨7, 3, [⟨"s1", "Math"⟩], .valid 0, .valid 10⟩).needAuth 3599001 = true := by
  refine ⟨?_, ?_, ?_⟩
  · exact c2_needAuth_spec.2.1 "h" "l" "pw" "tts" 0
  · exact c2_needAuth_spec.2.2.1 _ 0 true _ _ _ _ (by decide) (by decide)
      (by decide) (by decide) (by decide)
  · exact c2_needAuth_spec.2.2.2 _ 3599001 3600000 rfl (by decide)

/-- Characters matched by the regex `.` (anything but a line terminator). -/
def isDotChar (c : Char) : Bool :=
  c != '\n' && c != '\r' && c != '\u2028' && c != '\u2029'

/-- The name part of `^(.+?)=(.+?)(?=;|$)`: the lazy group stops at the first
`=` preceded by at least one character; a line terminator in the name region
kills the whole match.  Returns the name and the remainder after the `=`. -/
def splitAtEq : List Char → List Char → Option (List Char × List Char)
  | _, [] => none
  | acc, c :: cs =>
    if c = '=' ∧ acc ≠ [] then some (acc.reverse, cs)
    else if isDotChar c then splitAtEq (c :: acc) cs
    else none

/-- Scanning the value group past its first character: it extends lazily up
to (not including) the next `;`, to the end of the string, and fails on a
line terminator (the regex cannot match across it, and retrying later `=`
positions fails the same way). -/
def takeValueGo : List Char → List Char → Option (List Char)
  | acc, [] => some acc.reverse
  | acc, c :: cs =>
    if c = ';' then some acc.reverse
    else if isDotChar c then takeValueGo (c :: acc) cs
    else none

/-- The value part of the cookie pattern: at least one character, up to the
next `;` or the end of the string. -/
def takeValue : List Char → Option (List Char)
  | [] => none
  | c :: cs => if isDotChar c then takeValueGo [c] cs else none

/-- `c.match(/^(.+?)=(.+?)(?=;|$)/)`, reduced to the two capture groups. -/
def matchNameValue (c : List Char) : Option (String × String) :=
  match splitAtEq [] c with
  | none => none
  | some (nm, rest) =>
    match takeValue rest with
    | none => none
    | some v => some (String.mk nm, String.mk v)

/-- `split(', ')`: the chunks of the header between `", "` separators. -/
def splitCommaSpace : List Char → List (List Char)
  | [] => [[]]
  | ',' :: ' ' :: rest => [] :: splitCommaSpace rest
  | c :: rest =>
    match splitCommaSpace rest with
    | [] => [[c]]
    | x :: xs => (c :: x) :: xs

/-- Whether `needle` is a prefix of `hay`. -/
def startsWithL : List Char → List Char → Bool
  | [], _ => true
  | _ :: _, [] => false
  | n :: ns, h :: hs => n == h && startsWithL ns hs

/-- Whether `needle` occurs as a contiguous substring of `hay`. -/
def hasSubL (needle : List Char) : List Char → Bool
  | [] => needle.isEmpty
  | c :: cs => startsWithL needle (c :: cs) || hasSubL needle cs

/-- The literal `expires=` of the stripping regex. -/
def expiresPat : List Char := ['e', 'x', 'p', 'i', 'r', 'e', 's', '=']

/-- After a matched `expires=`, the lazy `.+?;` consumes at least one
non-terminator character and everything up to and including the next `;`;
`none` when no such `;` exists (the match fails at this start position). -/
def afterSemiScan : List Char → Option (List Char)
  | [] => none
  | c :: cs => if c = ';' then some cs else if isDotChar c then afterSemiScan cs else none

/-- The first consumed character of `.+?;` (a `;` here is consumed as
content, the terminating `;` must come later). -/
def afterSemi1 : List Char → Option (List Char)
  | [] => none
  | c :: cs => if isDotChar c then afterSemiScan cs else none

/-- `replace(/expires=.+?;/g, '')`: left-to-right scan; at a match the whole
`expires=...;` is dropped and scanning resumes after it (the replacement is
not rescanned); otherwise the character is kept.  The fuel starts at the
length of the list, which every recursive call strictly decreases. -/
def stripExpiresGo : Nat → List Char → List Char
  | 0, l => l
  | _ + 1, [] => []
  | fuel + 1, c :: cs =>
    if startsWithL expiresPat (c :: cs) then
      match afterSemi1 (List.drop 8 (c :: cs)) with
      | some rest => stripExpiresGo fuel rest
      | none => c :: stripExpiresGo fuel cs
    else c :: stripExpiresGo fuel cs

/-- The expiry-stripping pass over a header value. -/
def stripExpires (l : List Char) : List Char :=
  stripExpiresGo l.length l

/-- `saveCookie`'s extraction: strip `expires=...;` fragments, split on
`", "`, match each chunk's leading `name=value`, and keep the pairs whose
name and value are both non-empty (`if (!name || !value) continue`). -/
def extractPairs (h : String) : List (String × String) :=
  ((splitCommaSpace (stripExpires h.data)).filterMap matchNameValue).filter
    (fun p => p.1 != "" && p.2 != "")

/-- `this._cookie[name] = value` on a plain JS object: an existing key keeps
its position and gets the new value, a new key is appended. -/
def insertPair (jar : List (String × String)) (p : String × String) :
    List (String × String) :=
  if p.1 ∈ jar.map Prod.fst then
    jar.map (fun q => if q.1 = p.1 then (q.1, p.2) else q)
  else jar ++ [p]

/-- Absorbing one response's `set-cookie` header into the jar (a missing
header leaves the jar untouched, matching the optional-chaining guards). -/
def absorbHeader (jar : List (String × String)) (h : Option String) :
    List (String × String) :=
  match h with
  | none => jar
  | some s => (extractPairs s).foldl insertPair jar

/-- A transport response, reduced to the fields this layer inspects. -/
structure Response where
  ok : Bool
  setCookie : Option String
deriving DecidableEq

/-- `FetchError`, carrying the non-success response. -/
structure FetchError where
  res : Response
deriving DecidableEq

/-- `saveCookie(res)`: absorb the response's `set-cookie` header. -/
def Parser.saveCookie (p : Parser) (res : Response) : Parser :=
  { p with _cookie := absorbHeader p._cookie res.setCookie }

/-- The `fetch` wrapper's response handling: a non-ok response throws
`FetchError` (before `saveCookie` runs), an ok response is absorbed and
passed through. -/
def Parser.fetchStep (p : Parser) (res : Response) :
    Parser × Except FetchError Response :=
  if res.ok then (p.saveCookie res, .ok res) else (p, .error ⟨res⟩)

/-- `logOut()`: performs the fetch; only the fulfilled continuation clears
`_at`, `_ver` and `_sessionTime` — a rejected fetch leaves the state as the
wrapper left it and propagates the error. -/
def Parser.logOut (p : Parser) (res : Response) : Parser × Except FetchError Unit :=
  match p.fetchStep res with
  | (p1, .ok _) => ({ p1 with _at := none, _ver := none, _sessionTime := none }, .ok ())
  | (p1, .error e) => (p1, .error e)

/-- The numeric value of a digit string. -/
def natOfDigits (cs : List Char) : Nat :=
  cs.foldl (fun n c => n * 10 + (c.toNat - 48)) 0

/-- Whether a JS object key is an array index (canonical digit string below
2^32 - 1): such keys are enumerated first, in ascending numeric order. -/
def isArrayIndex (s : String) : Bool :=
  !(s.data.isEmpty) && s.data.all (fun c => c.isDigit) &&
    (s == "0" || s.data.headD ' ' != '0') && natOfDigits s.data < 4294967295

/-- Stable insertion of a pair into a list sorted by numeric key value. -/
def insByNum (p : String × String) : List (String × String) → List (String × String)
  | [] => [p]
  | q :: qs =>
    if natOfDigits q.1.data ≤ natOfDigits p.1.data then q :: insByNum p qs
    else p :: q :: qs

/-- Insertion sort by numeric key value. -/
def sortByNum : List (String × String) → List (String × String)
  | [] => []
  | p :: ps => insByNum p (sortByNum ps)

/-- JS `for...in` enumeration order over a plain object: array-index keys
first in ascending numeric order, then the remaining keys in insertion
order. -/
def jsKeyOrder (jar : List (String × String)) : List (String × String) :=
  sortByNum (jar.filter (fun p => isArrayIndex p.1)) ++
    jar.filter (fun p => !(isArrayIndex p.1))

/-- One step of the cookie getter's loop:
`if (!value) continue; if (str != '') str += '; '; str += key + '=' + value`. -/
def renderFold (str : String) (kv : String × String) : String :=
  if kv.2 = "" then str
  else (if str = "" then str else str ++ "; ") ++ kv.1 ++ "=" ++ kv.2

/-- The `cookie` getter applied to a jar: fold the render step over the
object's enumeration order. -/
def renderJar (jar : List (String × String)) : String :=
  (jsKeyOrder jar).foldl renderFold ""

/-- The `cookie` getter. -/
def Parser.cookie (p : Parser) : String :=
  renderJar p._cookie

/-- A session that has logged in (token, version, expiry, identity set). -/
def sampleSession3 : Parser :=
  { Parser.construct "h" "l" "pw" "tts" with
      _at := some "tok", _ver := some "v5", _sessionTime := some 99,
      _userId := some 7, _classId := some 3, _cookie := [("k", "v")] }

/-- C3 counterexample: when the logout HTTP call fails (non-ok response),
the rejected promise skips the fulfilled continuation, so the token,
version and expiry are NOT cleared, contradicting the claim that clearing
happens regardless of the call's success. -/
theorem c3_counterexample :
    (sampleSession3.logOut { ok := false, setCookie := none }).1 = sampleSession3 ∧
    (sampleSession3.logOut { ok := false, setCookie := none }).1._at = some "tok" ∧
    (sampleSession3.logOut { ok := false, setCookie := none }).2 =
      .error ⟨{ ok := false, setCookie := none }⟩ := by
  refine ⟨rfl, rfl, rfl⟩

/-- C3 (amended): when the logout HTTP call succeeds, the token, version and
expiry are cleared while the account-identity fields are unchanged and the
cookie jar changes only by the standard absorption of the response's
`set-cookie` header (unchanged when the response sets none); when the call
fails, the error propagates and the whole session state is unchanged. -/
theorem c3_logout_spec (p : Parser) (res : Response) :
    (res.ok = true →
      (p.logOut res).1._at = none ∧
      (p.logOut res).1._ver = none ∧
      (p.logOut res).1._sessionTime = none ∧
      (p.logOut res).1._userId = p._userId ∧
      (p.logOut res).1._classId = p._classId ∧
      (p.logOut res).1.subjects = p.subjects ∧
      (p.logOut res).1.studyYearStart = p.studyYearStart ∧
      (p.logOut res).1.studyYearEnd = p.studyYearEnd ∧
      (p.logOut res).1._cookie = absorbHeader p._cookie res.setCookie ∧
      (res.setCookie = none → (p.logOut res).1._cookie = p._cookie) ∧
      (p.logOut res).2 = .ok ()) ∧
    (res.ok = false →
      (p.logOut res).1 = p ∧ (p.logOut res).2 = .error ⟨res⟩) := by
  constructor
  · intro hok
    simp only [Parser.logOut, Parser.fetchStep, hok, if_true, Parser.saveCookie]
    refine ⟨?_, ?_, ?_, ?_, ?_, ?_, ?_, ?_, ?_, ?_, ?_⟩ <;>
      first
      | trivial
      | (intro hnone; simp [hnone, absorbHeader])
  · intro hok
    simp only [Parser.logOut, Parser.fetchStep, hok, Bool.false_eq_true, if_false]
    refine ⟨?_, ?_⟩ <;> trivial

/-- C3 witness: a successful logout on the sample session clears the session
fields, keeps identity fields and (with no `set-cookie`) the jar. -/
theorem c3_witness :
    (sampleSession3.logOut { ok := true, setCookie := none }).1._at = none ∧
    (sampleSession3.logOut { ok := true, setCookie := none }).1._userId = some 7 ∧
    (sampleSession3.logOut { ok := true, setCookie := none }).1._cookie = [("k", "v")] := by
  obtain ⟨h1, _, _, h4, _, _, _, _, _, h10, _⟩ :=
    (c3_logout_spec sampleSession3 { ok := true, setCookie := none }).1 rfl
  exact ⟨h1, h4, h10 rfl⟩

/-- Looking a cookie name up in the jar (first entry wins, as in a JS
object where keys are unique). -/
def jarGet : List (String × String) → String → Option String
  | [], _ => none
  | q :: qs, name => if q.1 = name then some q.2 else jarGet qs name

/-- Overwriting an existing key rewrites its value in place: the lookup of
any present name afterwards yields the new value for that key and the old
value for others. -/
theorem jarGet_mapReplace (m u name : String) :
    ∀ (jar : List (String × String)) (v : String), jarGet jar name = some v →
      jarGet (jar.map (fun q => if q.1 = m then (q.1, u) else q)) name =
        some (if name = m then u else v) := by
  intro jar
  induction jar with
  | nil => intro v h; simp [jarGet] at h
  | cons a rest ih =>
      intro v h
      have hfst : (if a.1 = m then (a.1, u) else a).1 = a.1 := by
        by_cases ham : a.1 = m <;> simp [ham]
      by_cases ha : a.1 = name
      · rw [jarGet, if_pos ha] at h
        rw [List.map_cons, jarGet, hfst, if_pos ha]
        have hsnd : (if a.1 = m then (a.1, u) else a).2 = if a.1 = m then u else a.2 := by
          by_cases ham : a.1 = m <;> simp [ham]
        rw [hsnd, ha]
        rcases Option.some.injEq _ _ ▸ h with rfl
        rfl
      · rw [jarGet, if_neg ha] at h
        rw [List.map_cons, jarGet, hfst, if_neg ha]
        exact ih v h

/-- A lookup that succeeds still succeeds after appending entries. -/
theorem jarGet_append_left (jar l2 : List (String × String)) (name v : String)
    (h : jarGet jar name = some v) : jarGet (jar ++ l2) name = some v := by
  induction jar with
  | nil => simp [jarGet] at h
  | cons a rest ih =>
      by_cases ha : a.1 = name
      · rw [jarGet, if_pos ha] at h
        rw [List.cons_append, jarGet, if_pos ha]
        exact h
      · rw [jarGet, if_neg ha] at h
        rw [List.cons_append, jarGet, if_neg ha]
        exact ih h

/-- A successful lookup means the name is among the jar's keys. -/
theorem mem_keys_of_jarGet :
    ∀ (jar : List (String × String)) (name v : String),
      jarGet jar name = some v → name ∈ jar.map Prod.fst := by
  intro jar
  induction jar with
  | nil => intro name v h; simp [jarGet] at h
  | cons a rest ih =>
      intro name v h
      by_cases ha : a.1 = name
      · rw [List.map_cons]
        exact ha ▸ List.mem_cons_self a.1 _
      · rw [jarGet, if_neg ha] at h
        rw [List.map_cons]
        exact List.mem_cons_of_mem _ (ih name v h)

/-- `insertPair` never drops a present key: its value becomes the inserted
one when the names coincide and stays unchanged otherwise. -/
theorem insertPair_jarGet (jar : List (String × String)) (m u name v : String)
    (h : jarGet jar name = some v) :
    jarGet (insertPair jar (m, u)) name = some (if name = m then u else v) := by
  unfold insertPair
  by_cases hk : (m, u).1 ∈ jar.map Prod.fst
  · rw [if_pos hk]
    exact jarGet_mapReplace m u name jar v h
  · rw [if_neg hk]
    have hne : name ≠ m := by
      intro he
      exact hk (he ▸ mem_keys_of_jarGet jar name v h)
    rw [if_neg hne]
    exact jarGet_append_left jar [(m, u)] name v h

/-- Folding insertions of pairs with non-empty values over the jar keeps
every present key, either with its old value or with a non-empty new one. -/
theorem jarGet_foldl_insert :
    ∀ (ps : List (String × String)) (jar : List (String × String)) (name v : String),
      (∀ q ∈ ps, q.2 ≠ "") → jarGet jar name = some v →
      ∃ v2, jarGet (ps.foldl insertPair jar) name = some v2 ∧ (v2 = v ∨ v2 ≠ "") := by
  intro ps
  induction ps with
  | nil => intro jar name v hne h; exact ⟨v, h, Or.inl rfl⟩
  | cons pq rest ih =>
      intro jar name v hne h
      obtain ⟨m, u⟩ := pq
      have h1 := insertPair_jarGet jar m u name v h
      obtain ⟨v2, hv2, hd⟩ := ih (insertPair jar (m, u)) name (if name = m then u else v)
        (fun q hq => hne q (List.mem_cons_of_mem _ hq)) h1
      refine ⟨v2, by simpa using hv2, ?_⟩
      rcases hd with hd | hd
      · by_cases hnm : name = m
        · right
          rw [hd, if_pos hnm]
          exact hne (m, u) (List.mem_cons_self _ _)
        · left
          rw [hd, if_neg hnm]
      · right
        exact hd

/-- Every pair kept by the extraction has a non-empty name and value. -/
theorem extractPairs_ne (h : String) : ∀ q ∈ extractPairs h, q.1 ≠ "" ∧ q.2 ≠ "" := by
  intro q hq
  unfold extractPairs at hq
  have hpred := List.of_mem_filter hq
  simp only [Bool.and_eq_true, bne_iff_ne] at hpred
  exact hpred

/-- C7 counterexample: on a non-ok response carrying `set-cookie: a=b`, the
wrapper throws before `saveCookie`, so the jar stays empty even though the
absorption step would have stored the pair — absorption is not applied to
unsuccessful exchanges. -/
theorem c7_counterexample :
    ((Parser.construct "h" "l" "pw" "tts").fetchStep
        { ok := false, setCookie := some "a=b" }).1 =
      Parser.construct "h" "l" "pw" "tts" ∧
    ((Parser.construct "h" "l" "pw" "tts").saveCookie
        { ok := false, setCookie := some "a=b" })._cookie = [("a", "b")] ∧
    ((Parser.construct "h" "l" "pw" "tts").fetchStep
        { ok := false, setCookie := some "a=b" }).1._cookie ≠
      ((Parser.construct "h" "l" "pw" "tts").saveCookie
        { ok := false, setCookie := some "a=b" })._cookie := by
  refine ⟨rfl, by decide, by decide⟩

/-- C7 (amended): the fetch wrapper applies cookie absorption exactly to the
ok responses — a non-ok response raises `FetchError` with the session
unchanged — and absorption itself only adds keys or overwrites existing keys
with the non-empty extracted values: a key present in the jar is never
removed, and is only ever rewritten to a non-empty value. -/
theorem c7_fetch_cookie_spec (p : Parser) (res : Response) :
    (res.ok = true → p.fetchStep res = (p.saveCookie res, .ok res)) ∧
    (res.ok = false → p.fetchStep res = (p, .error ⟨res⟩)) ∧
    (∀ name v, jarGet p._cookie name = some v →
      ∃ v2, jarGet (p.saveCookie res)._cookie name = some v2 ∧ (v2 = v ∨ v2 ≠ "")) := by
  refine ⟨fun hok => by simp [Parser.fetchStep, hok],
          fun hok => by simp [Parser.fetchStep, hok], ?_⟩
  intro name v h
  unfold Parser.saveCookie absorbHeader
  cases hsc : res.setCookie with
  | none => exact ⟨v, h, Or.inl rfl⟩
  | some s =>
      exact jarGet_foldl_insert (extractPairs s) p._cookie name v
        (fun q hq => (extractPairs_ne s q hq).2) h

/-- C7 witness: an ok response flows through absorption, and a jar key "k"
survives an absorption with its value. -/
theorem c7_witness :
    (Parser.construct "h" "l" "pw" "tts").fetchStep { ok := true, setCookie := none } =
      ((Parser.construct "h" "l" "pw" "tts").saveCookie { ok := true, setCookie := none },
        .ok { ok := true, setCookie := none }) ∧
    (∃ v2, jarGet (sampleSession3.saveCookie { ok := true, setCookie := some "a=b" })._cookie
        "k" = some v2 ∧ (v2 = "v" ∨ v2 ≠ "")) := by
  constructor
  · exact (c7_fetch_cookie_spec (Parser.construct "h" "l" "pw" "tts")
      { ok := true, setCookie := none }).1 rfl
  · exact (c7_fetch_cookie_spec sampleSession3
      { ok := true, setCookie := some "a=b" }).2.2 "k" "v" rfl

/-- Joining with `"; "` when both sides are present (the claim's join,
with empty sides absorbed). -/
def combineSemi (a b : String) : String :=
  if a = "" then b else if b = "" then a else a ++ "; " ++ b

/-- The claim's `"; "`-join of a list of rendered pairs. -/
def joinSemiSep : List String → String
  | [] => ""
  | [s] => s
  | s :: ss => s ++ "; " ++ joinSemiSep ss

/-- The `"; "`-join of the `name=value` renderings of the pairs whose value
is non-empty. -/
def atomJoin (l : List (String × String)) : String :=
  joinSemiSep ((l.filter (fun p => p.2 != "")).map (fun p => p.1 ++ "=" ++ p.2))

/-- The last value a name receives in a pair sequence, defaulting to `v`. -/
def lastVal (n v : String) (ps : List (String × String)) : String :=
  ps.foldl (fun acc p => if p.1 = n then p.2 else acc) v

/-- The claim's deduplication: each name at its first-seen position, carrying
the last value assigned to it. -/
def firstSeenPairs : List (String × String) → List (String × String)
  | [] => []
  | p :: ps =>
    (p.1, lastVal p.1 p.2 ps) :: firstSeenPairs (ps.filter (fun q => q.1 != p.1))
termination_by l => l.length
decreasing_by
  simp only [List.length_cons]
  exact Nat.lt_succ_of_le (List.length_filter_le _ _)

/-- A string is empty exactly when its length is zero. -/
theorem str_empty_iff_len (s : String) : s = "" ↔ s.length = 0 := by
  constructor
  · intro h
    rw [h]
    rfl
  · intro h
    apply String.ext
    exact List.length_eq_zero.mp h

/-- Appending to a non-empty string stays non-empty. -/
theorem append_ne_empty_left (a b : String) (h : a ≠ "") : a ++ b ≠ "" := by
  intro hc
  apply h
  rw [str_empty_iff_len] at hc ⊢
  rw [String.length_append] at hc
  omega

/-- A rendered `name=value` atom is never the empty string. -/
theorem atom_ne (k v : String) : k ++ "=" ++ v ≠ "" := by
  intro hc
  rw [str_empty_iff_len, String.length_append, String.length_append] at hc
  have h1 : ("=" : String).length = 1 := rfl
  omega

/-- `combineSemi` with an empty right side. -/
theorem combineSemi_empty_right (a : String) : combineSemi a "" = a := by
  unfold combineSemi
  by_cases h : a = "" <;> simp [h]

/-- `combineSemi` is associative. -/
theorem combineSemi_assoc (a b c : String) :
    combineSemi (combineSemi a b) c = combineSemi a (combineSemi b c) := by
  by_cases ha : a = ""
  · simp [combineSemi, ha]
  · by_cases hb : b = ""
    · simp [combineSemi, ha, hb]
    · have habb : a ++ "; " ++ b ≠ "" :=
        append_ne_empty_left _ _ (append_ne_empty_left _ _ ha)
      by_cases hc : c = ""
      · simp [combineSemi, ha, hb, hc, habb]
      · have hbcc : b ++ "; " ++ c ≠ "" :=
          append_ne_empty_left _ _ (append_ne_empty_left _ _ hb)
        have habb2 : a ++ ("; " ++ b) ≠ "" := by
          rw [← String.append_assoc]
          exact habb
        have hbcc2 : b ++ ("; " ++ c) ≠ "" := by
          rw [← String.append_assoc]
          exact hbcc
        simp [combineSemi, ha, hb, hc, habb2, hbcc2, String.append_assoc]

/-- A join headed by a non-empty atom is non-empty. -/
theorem joinSemiSep_ne (y : String) (ys : List String) (hy : y ≠ "") :
    joinSemiSep (y :: ys) ≠ "" := by
  cases ys with
  | nil => exact hy
  | cons z zs =>
      show y ++ "; " ++ joinSemiSep (z :: zs) ≠ ""
      exact append_ne_empty_left _ _ (append_ne_empty_left _ _ hy)

/-- Peeling one non-empty atom off a join of non-empty atoms. -/
theorem joinSemiSep_cons (x : String) (l : List String) (hx : x ≠ "")
    (hl : ∀ a ∈ l, a ≠ "") : joinSemiSep (x :: l) = combineSemi x (joinSemiSep l) := by
  cases l with
  | nil =>
      show x = combineSemi x ""
      rw [combineSemi_empty_right]
  | cons y ys =>
      have hy : y ≠ "" := hl y (List.mem_cons_self _ _)
      have hne := joinSemiSep_ne y ys hy
      show x ++ "; " ++ joinSemiSep (y :: ys) = combineSemi x (joinSemiSep (y :: ys))
      rw [combineSemi, if_neg hx, if_neg hne]

/-- The cookie getter's fold is the `"; "`-join of the non-empty-valued
pairs, prefixed onto the accumulator. -/
theorem foldl_renderFold (l : List (String × String)) :
    ∀ str, l.foldl renderFold str = combineSemi str (atomJoin l) := by
  induction l with
  | nil =>
      intro str
      show str = combineSemi str (atomJoin [])
      rw [show atomJoin [] = "" from rfl, combineSemi_empty_right]
  | cons kv rest ih =>
      intro str
      obtain ⟨k, v⟩ := kv
      rw [List.foldl_cons]
      by_cases hv : v = ""
      · have h1 : renderFold str (k, v) = str := by
          simp [renderFold, hv]
        have h2 : atomJoin ((k, v) :: rest) = atomJoin rest := by
          unfold atomJoin
          rw [List.filter_cons]
          simp [hv]
        rw [h1, h2, ih]
      · have hatom : k ++ "=" ++ v ≠ "" := atom_ne k v
        have hatom2 : k ++ ("=" ++ v) ≠ "" := by
          rw [← String.append_assoc]
          exact hatom
        have h1 : renderFold str (k, v) = combineSemi str (k ++ "=" ++ v) := by
          unfold renderFold combineSemi
          by_cases hs : str = "" <;> simp [hs, hv, hatom2, String.append_assoc]
        have h2 : atomJoin ((k, v) :: rest) = combineSemi (k ++ "=" ++ v) (atomJoin rest) := by
          unfold atomJoin
          have hcond : ((k, v).2 != "") = true := by simp [hv]
          simp only [List.filter_cons, hcond, if_true, List.map_cons]
          apply joinSemiSep_cons _ _ hatom
          intro a ha
          obtain ⟨q, _, rfl⟩ := List.mem_map.mp ha
          exact atom_ne q.1 q.2
        rw [h1, ih, h2, combineSemi_assoc]

/-- `List.map` only depends on the function's values on members. -/
theorem mapCongrMem {α β : Type} (l : List α) (f g : α → β)
    (h : ∀ a ∈ l, f a = g a) : l.map f = l.map g := by
  induction l with
  | nil => rfl
  | cons a rest ih =>
      simp only [List.map_cons]
      rw [h a (List.mem_cons_self _ _), ih (fun x hx => h x (List.mem_cons_of_mem _ hx))]

/-- `List.filter` only depends on the predicate's values on members. -/
theorem filterCongrMem {α : Type} (l : List α) (p q : α → Bool)
    (h : ∀ a ∈ l, p a = q a) : l.filter p = l.filter q := by
  induction l with
  | nil => rfl
  | cons a rest ih =>
      rw [List.filter_cons, List.filter_cons, h a (List.mem_cons_self _ _),
        ih (fun x hx => h x (List.mem_cons_of_mem _ hx))]

/-- Filtering by a conjunction is iterated filtering. -/
theorem filterAnd {α : Type} (l : List α) (p q : α → Bool) :
    l.filter (fun a => p a && q a) = (l.filter p).filter q := by
  induction l with
  | nil => rfl
  | cons a rest ih =>
      by_cases hp : p a = true
      · by_cases hq : q a = true
        · simp [List.filter_cons, hp, hq, ih]
        · have hq2 : q a = false := by simpa using hq
          simp [List.filter_cons, hp, hq2, ih]
      · have hp2 : p a = false := by simpa using hp
        simp [List.filter_cons, hp2, ih]

/-- One assignment step of `lastVal`. -/
theorem lastVal_cons (n v : String) (r : String × String) (ps : List (String × String)) :
    lastVal n v (r :: ps) = lastVal n (if r.1 = n then r.2 else v) ps := rfl

/-- Pairs removed by a filter that keeps every pair named `n` do not change
the last value assigned to `n`. -/
theorem lastVal_filter (n : String) (pred : String × String → Bool) :
    ∀ (l : List (String × String)) (v : String),
      (∀ r ∈ l, r.1 = n → pred r = true) →
      lastVal n v (l.filter pred) = lastVal n v l := by
  intro l
  induction l with
  | nil => intro v _; rfl
  | cons r rest ih =>
      intro v h
      by_cases hp : pred r = true
      · rw [List.filter_cons, if_pos hp, lastVal_cons, lastVal_cons]
        exact ih _ (fun x hx hxn => h x (List.mem_cons_of_mem _ hx) hxn)
      · have hr : r.1 ≠ n := fun he => hp (h r (List.mem_cons_self _ _) he)
        rw [List.filter_cons, if_neg hp, lastVal_cons, if_neg hr]
        exact ih v (fun x hx hxn => h x (List.mem_cons_of_mem _ hx) hxn)

/-- Folding `insertPair` over a pair sequence: every pre-existing key keeps
its position and receives the last value the sequence assigns it, and the
genuinely new keys follow in first-seen order with their last values. -/
theorem foldl_insertPair_eq :
    ∀ (ps jar : List (String × String)),
      ps.foldl insertPair jar =
        jar.map (fun q => (q.1, lastVal q.1 q.2 ps)) ++
          firstSeenPairs (ps.filter (fun r => decide (r.1 ∉ jar.map Prod.fst))) := by
  intro ps
  induction ps with
  | nil =>
      intro jar
      show jar = jar.map (fun q => (q.1, lastVal q.1 q.2 [])) ++
        firstSeenPairs (List.filter _ [])
      simp [firstSeenPairs, lastVal]
  | cons pq rest ih =>
      intro jar
      obtain ⟨n, w⟩ := pq
      rw [List.foldl_cons, ih (insertPair jar (n, w))]
      by_cases hmem : n ∈ jar.map Prod.fst
      · have hins : insertPair jar (n, w) =
            jar.map (fun q => if q.1 = n then (q.1, w) else q) := by
          simp [insertPair, hmem]
        have hkeys : (jar.map (fun q => if q.1 = n then (q.1, w) else q)).map Prod.fst =
            jar.map Prod.fst := by
          rw [List.map_map]
          apply mapCongrMem
          intro q _
          by_cases hqn : q.1 = n <;> simp [hqn]
        rw [hins, hkeys]
        have hfilt : ((n, w) :: rest).filter (fun r => decide (r.1 ∉ jar.map Prod.fst)) =
            rest.filter (fun r => decide (r.1 ∉ jar.map Prod.fst)) := by
          rw [List.filter_cons]
          simp [hmem]
        rw [hfilt]
        congr 1
        rw [List.map_map]
        apply mapCongrMem
        intro q _
        by_cases hqn : q.1 = n
        · simp [Function.comp, hqn, lastVal_cons]
        · simp [Function.comp, hqn, lastVal_cons, Ne.symm hqn]
      · have hins : insertPair jar (n, w) = jar ++ [(n, w)] := by
          simp [insertPair, hmem]
        rw [hins]
        have hkeys : (jar ++ [(n, w)]).map Prod.fst = jar.map Prod.fst ++ [n] := by
          simp
        rw [hkeys]
        have hfilt : ((n, w) :: rest).filter (fun r => decide (r.1 ∉ jar.map Prod.fst)) =
            (n, w) :: rest.filter (fun r => decide (r.1 ∉ jar.map Prod.fst)) := by
          rw [List.filter_cons]
          simp [hmem]
        rw [hfilt]
        have hpred : rest.filter (fun r => decide (r.1 ∉ jar.map Prod.fst ++ [n])) =
            (rest.filter (fun r => decide (r.1 ∉ jar.map Prod.fst))).filter
              (fun r => r.1 != n) := by
          rw [← filterAnd]
          apply filterCongrMem
          intro r _
          by_cases h1 : r.1 ∈ jar.map Prod.fst <;> by_cases h2 : r.1 = n <;>
            simp [h1, h2]
        have hlast : lastVal n w (rest.filter (fun r => decide (r.1 ∉ jar.map Prod.fst))) =
            lastVal n w rest :=
          lastVal_filter n _ rest w (fun r _ hrn => by simp [hrn, hmem])
        have hmap : jar.map (fun q => (q.1, lastVal q.1 q.2 ((n, w) :: rest))) =
            jar.map (fun q => (q.1, lastVal q.1 q.2 rest)) := by
          apply mapCongrMem
          intro q hq
          have hqn : q.1 ≠ n := fun he => hmem (he ▸ List.mem_map_of_mem Prod.fst hq)
          rw [lastVal_cons]
          simp [Ne.symm hqn]
        rw [List.map_append, hpred, hmap]
        have hfsp : firstSeenPairs ((n, w) ::
            rest.filter (fun r => decide (r.1 ∉ jar.map Prod.fst))) =
            (n, lastVal n w (rest.filter (fun r => decide (r.1 ∉ jar.map Prod.fst)))) ::
              firstSeenPairs ((rest.filter (fun r => decide (r.1 ∉ jar.map Prod.fst))).filter
                (fun q => q.1 != n)) := by
          rw [firstSeenPairs]
        rw [hfsp, hlast]
        simp [List.append_assoc]

/-- C6 (amended): absorbing any sequence of `set-cookie` header values into
the empty jar and rendering reproduces exactly the extracted name=value
pairs (all of which have non-empty names and values), deduplicated by name
with first-seen position and last-seen value, enumerated in JS object key
order (integer-like names first in ascending numeric order, then the rest in
first-seen insertion order) and joined by `"; "`.  Semicolon-terminated
`expires=...;` fragments are stripped before extraction, but an expires
attribute without a terminating semicolon can itself be absorbed as a pair
(see the counterexample). -/
theorem c6_cookie_roundtrip_spec (hs : List String) :
    renderJar (hs.foldl (fun jar h => absorbHeader jar (some h)) []) =
      joinSemiSep
        (((jsKeyOrder (firstSeenPairs ((hs.map extractPairs).flatten))).filter
            (fun p => p.2 != "")).map (fun p => p.1 ++ "=" ++ p.2)) ∧
    (∀ q ∈ (hs.map extractPairs).flatten, q.1 ≠ "" ∧ q.2 ≠ "") := by
  constructor
  · have habs : ∀ (hs2 : List String) (jar : List (String × String)),
        hs2.foldl (fun jar h => absorbHeader jar (some h)) jar =
          ((hs2.map extractPairs).flatten).foldl insertPair jar := by
      intro hs2
      induction hs2 with
      | nil => intro jar; rfl
      | cons h rest ih =>
          intro jar
          rw [List.foldl_cons, ih (absorbHeader jar (some h))]
          show ((rest.map extractPairs).flatten).foldl insertPair
              ((extractPairs h).foldl insertPair jar) =
            (extractPairs h ++ (rest.map extractPairs).flatten).foldl insertPair jar
          rw [List.foldl_append]
    rw [habs hs [], foldl_insertPair_eq]
    simp only [List.map_nil, List.nil_append]
    have hfilter : ((hs.map extractPairs).flatten).filter
        (fun r => decide (r.1 ∉ ([] : List String))) =
        (hs.map extractPairs).flatten := by
      apply List.filter_eq_self.mpr
      intro a _
      simp
    rw [hfilter, renderJar, foldl_renderFold, combineSemi, if_pos rfl]
    rfl
  · intro q hq
    rw [List.mem_flatten] at hq
    obtain ⟨l, hl, hql⟩ := hq
    rw [List.mem_map] at hl
    obtain ⟨h, _, rfl⟩ := hl
    exact extractPairs_ne h q hql

/-- C6 counterexample: the header value "expires=a, 2=b" (an expires
attribute with no terminating semicolon, then a cookie named "2").  The
stripping regex does not fire (no `;`), so the pair ("expires", "a") is
absorbed; and the integer-like name "2" is enumerated before it, so the
render is "2=b; expires=a" — not the first-seen-order join
"expires=a; 2=b" — and still contains an `expires=` fragment. -/
theorem c6_counterexample :
    renderJar (absorbHeader [] (some "expires=a, 2=b")) = "2=b; expires=a" ∧
    "2=b; expires=a" ≠ joinSemiSep ["expires" ++ "=" ++ "a", "2" ++ "=" ++ "b"] ∧
    hasSubL ("expires=".data) ("2=b; expires=a".data) = true := by
  refine ⟨by decide, by decide, by decide⟩

/-- C6 witness: the pair ("a", "1") extracted from the header "a=1" has a
non-empty name and value. -/
theorem c6_witness :
    ("a", "1") ∈ (["a=1"].map extractPairs).flatten ∧
    ("a" : String) ≠ "" ∧ ("1" : String) ≠ "" := by
  have h := (c6_cookie_roundtrip_spec ["a=1"]).2 ("a", "1") (by decide)
  exact ⟨by decide, h.1, h.2⟩

/-- Modelled from the spec: the `Protect` proxy and its in-flight registry
live in a repository source file not present under `src/`; §4.5 specifies a
registry mapping a coalescing key (the fingerprint of operation identity and
argument list) to the shared pending handle.  The state tracks the registry
(key ↦ execution id), the next fresh execution id, the waiters (caller id ↦
execution id awaited) and the executions actually started. -/
structure PState where
  registry : List (Nat × Nat)
  nextExec : Nat
  waiters : List (Nat × Nat)
  started : List Nat
deriving DecidableEq

/-- Modelled from the spec: invoking a Protect-wrapped operation — if the
key is registered, the caller joins the in-flight execution's waiters;
otherwise a fresh execution starts, is registered under the key, and the
caller awaits it. -/
def pInvoke (st : PState) (caller : Nat) (k : Nat) : PState :=
  match st.registry.find? (fun q => q.1 == k) with
  | some (_, e) => { st with waiters := st.waiters ++ [(caller, e)] }
  | none =>
      { registry := st.registry ++ [(k, st.nextExec)]
        nextExec := st.nextExec + 1
        waiters := st.waiters ++ [(caller, st.nextExec)]
        started := st.started ++ [st.nextExec] }

/-- Modelled from the spec: settling the execution registered under a key —
whatever the outcome (success or failure alike), the registry entry is
removed and every waiter of that execution receives the one shared outcome. -/
def pSettle {V : Type} (st : PState) (k : Nat) (out : V) : PState × List (Nat × V) :=
  match st.registry.find? (fun q => q.1 == k) with
  | none => (st, [])
  | some (_, e) =>
      ({ st with registry := st.registry.filter (fun q => q.1 != k)
                 waiters := st.waiters.filter (fun w => w.2 != e) },
       (st.waiters.filter (fun w => w.2 == e)).map (fun w => (w.1, out)))

/-- Once a key is registered to execution `e`, further invocations with that
key change neither the registry, the started list nor the id counter: each
caller just joins the waiters of `e`. -/
theorem pInvoke_fold (rest : List Nat) :
    ∀ (st : PState) (k : Nat) (kE : Nat × Nat),
      st.registry.find? (fun q => q.1 == k) = some kE →
      (rest.foldl (fun s c => pInvoke s c k) st).registry = st.registry ∧
      (rest.foldl (fun s c => pInvoke s c k) st).started = st.started ∧
      (rest.foldl (fun s c => pInvoke s c k) st).nextExec = st.nextExec ∧
      (rest.foldl (fun s c => pInvoke s c k) st).waiters =
        st.waiters ++ rest.map (fun c => (c, kE.2)) := by
  induction rest with
  | nil => intro st k kE _; simp
  | cons c cs ih =>
      intro st k kE hfind
      obtain ⟨ke, e⟩ := kE
      have hstep : pInvoke st c k = { st with waiters := st.waiters ++ [(c, e)] } := by
        rw [pInvoke, hfind]
      rw [List.foldl_cons, hstep]
      have hfind2 : ({ st with waiters := st.waiters ++ [(c, e)] } : PState).registry.find?
          (fun q => q.1 == k) = some (ke, e) := hfind
      obtain ⟨h1, h2, h3, h4⟩ := ih _ k (ke, e) hfind2
      refine ⟨h1, h2, h3, ?_⟩
      rw [h4]
      simp [List.append_assoc]

/-- C9: starting from any state with no in-flight entry for the key, any
non-empty batch of concurrent invocations with that key starts exactly one
new execution; every caller of the batch awaits that same execution; settling
the key (with a success or a failure outcome alike) delivers that single
shared outcome to every batch caller, everything delivered is that one
outcome, and the registry entry for the key is removed. -/
theorem c9_protect_spec {V : Type} (st0 : PState) (k : Nat) (callers : List Nat)
    (out : V) (hne : callers ≠ [])
    (hreg : st0.registry.find? (fun q => q.1 == k) = none) :
    ((callers.foldl (fun s c => pInvoke s c k) st0).started =
      st0.started ++ [st0.nextExec]) ∧
    (∀ c ∈ callers, (c, st0.nextExec) ∈
      (callers.foldl (fun s c => pInvoke s c k) st0).waiters) ∧
    (∀ c ∈ callers, (c, out) ∈
      (pSettle (callers.foldl (fun s c => pInvoke s c k) st0) k out).2) ∧
    (∀ pr ∈ (pSettle (callers.foldl (fun s c => pInvoke s c k) st0) k out).2,
      pr.2 = out) ∧
    ((pSettle (callers.foldl (fun s c => pInvoke s c k) st0) k out).1.registry.find?
      (fun q => q.1 == k) = none) := by
  obtain ⟨c0, rest, rfl⟩ : ∃ c0 rest, callers = c0 :: rest := by
    cases callers with
    | nil => exact absurd rfl hne
    | cons a l => exact ⟨a, l, rfl⟩
  set E := st0.nextExec with hE
  have hstep : pInvoke st0 c0 k =
      { registry := st0.registry ++ [(k, E)], nextExec := E + 1,
        waiters := st0.waiters ++ [(c0, E)], started := st0.started ++ [E] } := by
    rw [pInvoke, hreg]
  have hfind1 : (pInvoke st0 c0 k).registry.find? (fun q => q.1 == k) = some (k, E) := by
    rw [hstep]
    show (st0.registry ++ [(k, E)]).find? (fun q => q.1 == k) = some (k, E)
    rw [List.find?_append, hreg]
    simp
  obtain ⟨hreg2, hstart2, _, hwait2⟩ := pInvoke_fold rest (pInvoke st0 c0 k) k (k, E) hfind1
  have hfoldc : (c0 :: rest).foldl (fun s c => pInvoke s c k) st0 =
      rest.foldl (fun s c => pInvoke s c k) (pInvoke st0 c0 k) := by
    rw [List.foldl_cons]
  have hwaitAll : ∀ c ∈ c0 :: rest,
      (c, E) ∈ ((c0 :: rest).foldl (fun s c => pInvoke s c k) st0).waiters := by
    intro c hc
    rw [hfoldc, hwait2]
    rcases List.mem_cons.mp hc with rfl | hcr
    · apply List.mem_append_left
      rw [hstep]
      exact List.mem_append_right _ (List.mem_singleton.mpr rfl)
    · exact List.mem_append_right _ (List.mem_map_of_mem _ hcr)
  have hfindN : ((c0 :: rest).foldl (fun s c => pInvoke s c k) st0).registry.find?
      (fun q => q.1 == k) = some (k, E) := by
    rw [hfoldc, hreg2]
    exact hfind1
  refine ⟨?_, hwaitAll, ?_, ?_, ?_⟩
  · rw [hfoldc, hstart2, hstep]
  · intro c hc
    have hw := hwaitAll c hc
    simp only [pSettle, hfindN]
    have hmem : (c, E) ∈ (((c0 :: rest).foldl (fun s c => pInvoke s c k) st0).waiters.filter
        (fun w => w.2 == E)) :=
      List.mem_filter.mpr ⟨hw, by simp⟩
    exact List.mem_map_of_mem (fun w => (w.1, out)) hmem
  · intro pr hpr
    simp only [pSettle, hfindN] at hpr
    obtain ⟨w, _, rfl⟩ := List.mem_map.mp hpr
    rfl
  · simp only [pSettle, hfindN]
    apply List.find?_eq_none.mpr
    intro q hq
    have hq2 := List.of_mem_filter hq
    simp only [bne_iff_ne, ne_eq] at hq2
    simp [hq2]

/-- C9 witness: from the empty state, callers 10 and 11 invoking key 1
share one new execution (id 0), both receive the settled outcome 42, and
the registry entry is gone after settlement. -/
theorem c9_witness :
    (([10, 11].foldl (fun s c => pInvoke s c 1) ⟨[], 0, [], []⟩).started =
      ([] : List Nat) ++ [0]) ∧
    ((10, (42 : Nat)) ∈
      (pSettle ([10, 11].foldl (fun s c => pInvoke s c 1) ⟨[], 0, [], []⟩) 1 42).2) ∧
    ((11, (42 : Nat)) ∈
      (pSettle ([10, 11].foldl (fun s c => pInvoke s c 1) ⟨[], 0, [], []⟩) 1 42).2) ∧
    ((pSettle ([10, 11].foldl (fun s c => pInvoke s c 1) ⟨[], 0, [], []⟩) 1 42).1.registry.find?
      (fun q => q.1 == 1) = none) := by
  obtain ⟨h1, _, h3, _, h5⟩ :=
    c9_protect_spec (V := Nat) ⟨[], 0, [], []⟩ 1 [10, 11] 42 (by decide) (by rfl)
  exact ⟨h1, h3 10 (by decide), h3 11 (by decide), h5⟩
